import Mathlib

/-!
Verification of the smoking-detection streaming service.

Shallow embedding of the code in src/routers/streaming.py,
src/routers/video_processing.py and src/utils.py.  Python strings are
modelled as lists of characters, Python dict lookups as Option-valued
inputs, and the async control flow of each coroutine as an explicit
event trace or small-step system.
-/

namespace SmokingService

/-! ## Batch aggregator (src/routers/video_processing.py)

`process_video_smoking_detection` samples one frame every 5 seconds,
classifies every sample, normalises each classifier outcome to a
Yes/No label, reduces the labels with a sliding window of 5, and takes
a strict majority of the window verdicts. -/

/-- Embeds the Python test `needle in hay` on strings: `needle` occurs
as a contiguous substring of `hay`.  Written with an explicit prefix
test to stay fully computable. -/
def startsWithChars : List Char → List Char → Bool
  | [], _ => true
  | _ :: _, [] => false
  | a :: as, b :: bs => (a == b) && startsWithChars as bs

/-- `containsSub needle hay` embeds Python `needle in hay`. -/
def containsSub (needle : List Char) : List Char → Bool
  | [] => needle.isEmpty
  | c :: rest => startsWithChars needle (c :: rest) || containsSub needle rest

/-- Embeds Python `str.strip()` (drop whitespace at both ends). -/
def pyStrip (s : List Char) : List Char :=
  ((s.dropWhile Char.isWhitespace).reverse.dropWhile Char.isWhitespace).reverse

/-- Embeds Python `str.lower()`. -/
def pyLower (s : List Char) : List Char := s.map Char.toLower

def yesChars : List Char := ['y', 'e', 's']

def yesLabel : List Char := ['Y', 'e', 's']

def noLabel : List Char := ['N', 'o']

/-- Embeds the verdict normalisation of video_processing.py lines 73-77:
`if result and "yes" in result.strip().lower()` appends "Yes", else
"No".  A classifier failure is `none` (detect_smoking returns None on
any API error, utils.py lines 39-41); `true` stands for the label
"Yes" and `false` for "No". -/
def normalizeVerdict : Option (List Char) → Bool
  | none => false
  | some s => !s.isEmpty && containsSub yesChars (pyLower (pyStrip s))

/-- A window is positive when `yes_count / window_size > 0.5`
(video_processing.py line 93).  With `window_size = 5` and
`yes_count : Nat` the float comparison is exactly the integer
inequality `2 * yes_count > 5`. -/
def windowPositive (w : List Bool) : Bool := decide (2 * w.count true > 5)

/-- One iteration of the loop at video_processing.py lines 88-96: the
deque with `maxlen = 5` drops its oldest element when full, and once
the deque holds 5 labels a window verdict is appended. -/
def windowStep (s : List Bool × List Bool) (v : Bool) : List Bool × List Bool :=
  let d := if s.1.length = 5 then s.1.tail ++ [v] else s.1 ++ [v]
  if d.length = 5 then (d, s.2 ++ [windowPositive d]) else (d, s.2)

/-- The list `window_verdicts` produced by the loop at
video_processing.py lines 85-96, starting from an empty deque. -/
def windowVerdicts (frame_verdicts : List Bool) : List Bool :=
  (frame_verdicts.foldl windowStep ([], [])).2

/-- Embeds the reduction of video_processing.py lines 80-106 over the
normalised per-sample labels: fewer than 5 samples fall back to
"any positive"; otherwise the sliding-window verdicts are computed and
the final verdict is `positive_windows / len(window_verdicts) > 0.5`,
which for naturals is exactly `2 * positives > total`. -/
def aggregateVerdicts (frame_verdicts : List Bool) : Bool :=
  if frame_verdicts.length < 5 then frame_verdicts.contains true
  else
    let wv := windowVerdicts frame_verdicts
    if wv.isEmpty then false
    else decide (2 * wv.count true > wv.length)

/-- Embeds `process_video_smoking_detection` (video_processing.py
lines 21-106) from the point where the sampled frames are fixed: the
input is the list of classifier outcomes, one per sampled frame, in
sampling order (asyncio.gather preserves task order, so completion
order is irrelevant).  An empty sample list returns "No" at line 60
before any classification. -/
def process_video_smoking_detection (api_verdicts : List (Option (List Char))) : Bool :=
  if api_verdicts.isEmpty then false
  else aggregateVerdicts (api_verdicts.map normalizeVerdict)

/-- Spec-side view of the trailing windows of 5 consecutive samples:
the list of all contiguous length-5 sublists, oldest first.  This is
the wording of the spec; the refinement theorem for C4 relates it to
the deque fold `windowVerdicts` taken from the source. -/
def windows5 : List Bool → List (List Bool)
  | [] => []
  | v :: rest => if 4 ≤ rest.length then (v :: rest).take 5 :: windows5 rest else []

theorem windows5_nil_of_short (l : List Bool) (h : l.length < 5) : windows5 l = [] := by
  cases l with
  | nil => rfl
  | cons v rest =>
    simp only [windows5, List.length_cons] at *
    have : ¬ 4 ≤ rest.length := by omega
    simp [this]

theorem windows5_cons_of_long (v : Bool) (rest : List Bool) (h : 4 ≤ rest.length) :
    windows5 (v :: rest) = (v :: rest).take 5 :: windows5 rest := by
  simp [windows5, h]

theorem windows5_length (l : List Bool) : (windows5 l).length = l.length - 4 := by
  induction l with
  | nil => rfl
  | cons v rest ih =>
    by_cases h : 4 ≤ rest.length
    · rw [windows5_cons_of_long v rest h]
      simp only [List.length_cons, ih]
      omega
    · have h5 : (v :: rest).length < 5 := by simp; omega
      rw [windows5_nil_of_short _ h5]
      simp only [List.length_nil, List.length_cons]
      omega

theorem windows5_mem_length (l : List Bool) (w : List Bool) (hw : w ∈ windows5 l) :
    w.length = 5 := by
  induction l with
  | nil => simp [windows5] at hw
  | cons v rest ih =>
    by_cases h : 4 ≤ rest.length
    · rw [windows5_cons_of_long v rest h] at hw
      rcases List.mem_cons.mp hw with hw | hw
      · subst hw
        simp only [List.length_take, List.length_cons]
        omega
      · exact ih hw
    · have h5 : (v :: rest).length < 5 := by simp; omega
      rw [windows5_nil_of_short _ h5] at hw
      simp at hw

/-- Once the deque is full (5 labels), every further label shifts the
deque and emits exactly one window verdict. -/
theorem foldl_windowStep_full (l : List Bool) :
    ∀ (a b c e f : Bool) (acc : List Bool),
      (l.foldl windowStep ([a, b, c, e, f], acc)).2 =
        acc ++ (windows5 ([b, c, e, f] ++ l)).map windowPositive := by
  induction l with
  | nil =>
    intro a b c e f acc
    rw [windows5_nil_of_short _ (by simp)]
    simp
  | cons v t ih =>
    intro a b c e f acc
    have hstep : windowStep ([a, b, c, e, f], acc) v =
        ([b, c, e, f, v], acc ++ [windowPositive [b, c, e, f, v]]) := by
      simp [windowStep]
    rw [List.foldl_cons, hstep, ih]
    have h1 : ([b, c, e, f] ++ v :: t : List Bool) = b :: (c :: e :: f :: v :: t) := by simp
    have h2 : ([c, e, f, v] ++ t : List Bool) = c :: e :: f :: v :: t := by simp
    rw [h1, h2, windows5_cons_of_long b (c :: e :: f :: v :: t) (by simp)]
    simp

/-- While the deque is still filling (fewer than 5 labels seen), the
fold emits the window verdicts of all trailing windows of the whole
remaining input. -/
theorem foldl_windowStep_fill (l : List Bool) :
    ∀ (d acc : List Bool), d.length < 5 →
      (l.foldl windowStep (d, acc)).2 = acc ++ (windows5 (d ++ l)).map windowPositive := by
  induction l with
  | nil =>
    intro d acc hd
    rw [List.append_nil, windows5_nil_of_short _ hd]
    simp
  | cons v t ih =>
    intro d acc hd
    by_cases h4 : d.length = 4
    · obtain ⟨a, b, c, e, rfl⟩ : ∃ a b c e, d = [a, b, c, e] := by
        match d, h4 with
        | [a, b, c, e], _ => exact ⟨a, b, c, e, rfl⟩
      have hstep : windowStep ([a, b, c, e], acc) v =
          ([a, b, c, e, v], acc ++ [windowPositive [a, b, c, e, v]]) := by
        simp [windowStep]
      rw [List.foldl_cons, hstep, foldl_windowStep_full]
      have h1 : ([a, b, c, e] ++ v :: t : List Bool) = a :: (b :: c :: e :: v :: t) := by simp
      have h2 : ([b, c, e, v] ++ t : List Bool) = b :: c :: e :: v :: t := by simp
      rw [h1, h2, windows5_cons_of_long a (b :: c :: e :: v :: t) (by simp)]
      simp
    · have hstep : windowStep (d, acc) v = (d ++ [v], acc) := by
        have h5 : ¬ d.length = 5 := by omega
        have hlen : ¬ (d.length + 1 = 5) := by omega
        simp [windowStep, h5, hlen]
      rw [List.foldl_cons, hstep, ih (d ++ [v]) acc (by simp; omega)]
      simp

/-- The deque fold of the source equals the map of `windowPositive`
over the trailing windows of length 5. -/
theorem windowVerdicts_eq_windows5 (l : List Bool) :
    windowVerdicts l = (windows5 l).map windowPositive := by
  have := foldl_windowStep_fill l [] [] (by simp)
  simpa [windowVerdicts] using this

theorem windowPositive_iff (w : List Bool) :
    windowPositive w = decide (3 ≤ w.count true) := by
  simp only [windowPositive, decide_eq_decide]
  omega

theorem windowVerdicts_length (l : List Bool) :
    (windowVerdicts l).length = l.length - 4 := by
  rw [windowVerdicts_eq_windows5, List.length_map, windows5_length]

theorem aggregateVerdicts_of_long (l : List Bool) (h : 5 ≤ l.length) :
    aggregateVerdicts l =
      decide (2 * (windowVerdicts l).count true > (windowVerdicts l).length) := by
  have h1 := windowVerdicts_length l
  have hne : (windowVerdicts l).isEmpty = false := by
    cases hwv : windowVerdicts l with
    | nil => rw [hwv] at h1; simp at h1; omega
    | cons a t => rfl
  have hnl : ¬ l.length < 5 := by omega
  simp [aggregateVerdicts, hnl, hne]

/-- Claim C4: for at least 5 per-sample labels, the batch aggregator
computes one window verdict per trailing window of exactly 5
consecutive samples (n samples yield n - 4 windows, each window of
length 5), a window is positive iff at least 3 of its 5 samples are
positive, the final verdict is positive iff a strict majority of the
windows are positive, and 7 all-negative samples yield 3 all-negative
windows and overall verdict No. -/
theorem c4_sliding_window_majority (l : List Bool) (h : 5 ≤ l.length) :
    (windowVerdicts l).length = l.length - 4 ∧
    windowVerdicts l = (windows5 l).map (fun w => decide (3 ≤ w.count true)) ∧
    (∀ w ∈ windows5 l, w.length = 5) ∧
    aggregateVerdicts l = decide (2 * (windowVerdicts l).count true > l.length - 4) ∧
    windowVerdicts (List.replicate 7 false) = [false, false, false] ∧
    aggregateVerdicts (List.replicate 7 false) = false := by
  refine ⟨windowVerdicts_length l, ?_, windows5_mem_length l, ?_, by decide, by decide⟩
  · rw [windowVerdicts_eq_windows5]
    exact List.map_congr_left fun w _ => windowPositive_iff w
  · rw [aggregateVerdicts_of_long l h, windowVerdicts_length l]

theorem c4_sliding_window_majority_witness :
    aggregateVerdicts (List.replicate 7 false) = false :=
  (c4_sliding_window_majority (List.replicate 7 false) (by decide)).2.2.2.2.2

/-- Claim C5: fewer than 5 per-sample labels fall back to "positive
iff any sample is positive"; [Yes, No, Yes] yields Yes; the empty
sample list yields the negative verdict. -/
theorem c5_short_input_fallback :
    (∀ l : List Bool, l.length < 5 → aggregateVerdicts l = l.contains true) ∧
    process_video_smoking_detection [some yesLabel, some noLabel, some yesLabel] = true ∧
    process_video_smoking_detection [] = false := by
  refine ⟨fun l h => by simp [aggregateVerdicts, h], by decide, by decide⟩

theorem c5_short_input_fallback_witness :
    aggregateVerdicts [true, false, true] = [true, false, true].contains true :=
  c5_short_input_fallback.1 [true, false, true] (by decide)

/-- Claim C9: a sample whose classifier call fails (None) or whose
label does not contain "yes" case-insensitively is counted as a
negative sample, not dropped: replacing every failed outcome with the
explicit label "No" leaves the batch verdict unchanged. -/
theorem c9_failed_samples_count_negative (results : List (Option (List Char))) :
    normalizeVerdict none = false ∧
    normalizeVerdict (some noLabel) = false ∧
    (∀ s : List Char, containsSub yesChars (pyLower (pyStrip s)) = false →
        normalizeVerdict (some s) = false) ∧
    process_video_smoking_detection results =
      process_video_smoking_detection
        (results.map fun r => match r with | none => some noLabel | some s => some s) := by
  refine ⟨rfl, by decide, fun s hs => by simp [normalizeVerdict, hs], ?_⟩
  have hmap :
      (results.map fun r => match r with | none => some noLabel | some s => some s).map
          normalizeVerdict = results.map normalizeVerdict := by
    rw [List.map_map]
    refine List.map_congr_left fun r _ => ?_
    cases r with
    | none => show normalizeVerdict (some noLabel) = normalizeVerdict none; decide
    | some s => rfl
  have hemp :
      (results.map fun r => match r with | none => some noLabel | some s => some s).isEmpty =
        results.isEmpty := by
    cases results <;> rfl
  simp [process_video_smoking_detection, hmap, hemp]

theorem c9_failed_samples_count_negative_witness :
    normalizeVerdict (some ['E', 'r', 'r']) = false :=
  (c9_failed_samples_count_negative []).2.2.1 ['E', 'r', 'r'] (by decide)

/-! ## Stream registry and lifecycle (src/routers/streaming.py)

A session record is the per-id value of the `stream_sessions` dict.
Keys that a given code path never writes are modelled as Option
fields holding `none`; `session.get(key, default)` becomes
`Option.getD`.  Timestamps are abstract naturals. -/

/-- One entry of `stream_sessions` (streaming.py line 97).  Push
sessions are created with only `live`, `closing` and `created_at`
(line 940); pull sessions additionally carry `url`,
`detection_interval`, `status` and `type` (line 864).  `has_writer`
records whether a `video_writer` was stored and `writer_released`
whether its release method ran. -/
structure Session where
  live : Bool
  closing : Bool
  created_at : Nat
  closed_at : Option Nat
  status : Option String
  error : Option String
  has_writer : Bool
  writer_released : Bool
deriving DecidableEq

/-- Embeds `request_stream_token` (streaming.py lines 929-956): the
push-session record holds only the live/closing flags and the
creation time; in particular no `status` key is ever written. -/
def request_stream_token (now : Nat) : Session :=
  { live := true, closing := false, created_at := now, closed_at := none,
    status := none, error := none, has_writer := false, writer_released := false }

/-- Embeds the session record created by `open_stream_from_url`
(streaming.py lines 864-872): a pull session starts with
`status = "initializing"`. -/
def open_stream_from_url (now : Nat) : Session :=
  { live := true, closing := false, created_at := now, closed_at := none,
    status := some "initializing", error := none, has_writer := false,
    writer_released := false }

/-- Embeds `get_stream_status` (streaming.py lines 363-381): `none`
for an unknown id (404), otherwise the reported
`session.get("status", "unknown")` together with the live and closing
flags. -/
def get_stream_status (sess : Option Session) : Option (String × Bool × Bool) :=
  match sess with
  | none => none
  | some s => some (s.status.getD "unknown", s.live, s.closing)

inductive CloseStatus
  | notFound
  | alreadyClosing
  | alreadyClosed
  | closed
deriving DecidableEq

/-- Result of one `close_stream` request: the HTTP-level outcome,
whether the grace-period drain (the 2-second sleep plus resource
release, streaming.py lines 1161-1184) ran, and the session record
afterwards. -/
structure CloseResult where
  status : CloseStatus
  drained : Bool
  session : Option Session
deriving DecidableEq

/-- Embeds `close_stream` (streaming.py lines 1114-1194).  The input
is `stream_sessions.get(token)`: `none` raises 404; a session with
the closing flag set returns "already closing" at once; a dead
session returns "already closed" at once; otherwise the closing flag
is set, the grace period elapses, the video writer (if any) is
released, and the session is marked closed with a close timestamp. -/
def close_stream (sess : Option Session) (now : Nat) : CloseResult :=
  match sess with
  | none => ⟨.notFound, false, none⟩
  | some s =>
    if s.closing then ⟨.alreadyClosing, false, some s⟩
    else if !s.live then ⟨.alreadyClosed, false, some s⟩
    else
      ⟨.closed, true,
        some { s with live := false, closing := false, closed_at := some now,
                      writer_released := s.has_writer }⟩

/-- Claim C6: close is idempotent and a duplicate close performs no
second drain.  Unknown id fails NotFound; a session whose closing
flag is set gets "already closing" with no grace wait and no
mutation; a dead session gets "already closed" with no re-drain; a
live close drains once, and a repeated close after it reports
"already closed" without draining again. -/
theorem c6_close_idempotent (now now2 : Nat) :
    close_stream none now = ⟨.notFound, false, none⟩ ∧
    (∀ s : Session, s.closing = true →
        close_stream (some s) now = ⟨.alreadyClosing, false, some s⟩) ∧
    (∀ s : Session, s.closing = false → s.live = false →
        close_stream (some s) now = ⟨.alreadyClosed, false, some s⟩) ∧
    (∀ s : Session, s.closing = false → s.live = true →
        (close_stream (some s) now).status = .closed ∧
        (close_stream (some s) now).drained = true ∧
        close_stream (close_stream (some s) now).session now2 =
          ⟨.alreadyClosed, false, (close_stream (some s) now).session⟩) := by
  refine ⟨rfl, fun s hc => by simp [close_stream, hc], fun s hc hl => by
    simp [close_stream, hc, hl], fun s hc hl => ?_⟩
  refine ⟨by simp [close_stream, hc, hl], by simp [close_stream, hc, hl], ?_⟩
  simp [close_stream, hc, hl]

theorem c6_close_idempotent_witness :
    close_stream (some (request_stream_token 3)) 5 =
        ⟨.closed, true,
          some { live := false, closing := false, created_at := 3,
                 closed_at := some 5, status := none, error := none,
                 has_writer := false, writer_released := false }⟩ ∧
    close_stream (some { request_stream_token 3 with closing := true }) 5 =
        ⟨.alreadyClosing, false, some { request_stream_token 3 with closing := true }⟩ := by
  constructor
  · decide
  · exact (c6_close_idempotent 5 7).2.1 { request_stream_token 3 with closing := true } rfl

/-- Outcome of one run of the pull-session background task: the final
session record, the successive values assigned to the status key, and
the number of frames written to the sink. -/
structure UrlRunResult where
  session : Session
  statusTrace : List String
  frames : Nat
deriving DecidableEq

/-- Embeds `process_video_stream_from_url` (streaming.py lines
504-742) for a run that is not interrupted by a close request.
`openOk` is the result of `cap.isOpened()`; `readOks` lists the
outcomes of the successive `cap.read()` calls, and the main loop
breaks at the first failed read (line 638).  On an open failure the
status is set to "error" with the cause recorded and the function
returns before any `VideoWriter` is created (lines 560-575); on
success the status becomes "streaming", the writer is allocated
before the loop (lines 578-594) and every successfully read frame is
written.  Either way the `finally` block (lines 729-742) releases the
resources, clears the live flag and assigns status "stopped". -/
def process_video_stream_from_url (openOk : Bool) (readOks : List Bool)
    (s : Session) : UrlRunResult :=
  if !openOk then
    let s1 := { s with status := some "error",
                       error := some "Failed to open video stream" }
    let s2 := { s1 with live := false, status := some "stopped" }
    ⟨s2, ["error", "stopped"], 0⟩
  else
    let s1 := { s with status := some "streaming", has_writer := true }
    let k := (readOks.takeWhile (fun b => b)).length
    let s2 := { s1 with live := false, status := some "stopped",
                        writer_released := true }
    ⟨s2, ["streaming", "stopped"], k⟩

/-- Claim C7 evaluated on the code: on a source-open failure the error
cause is recorded and no video writer is ever allocated, but the
final status reported by a subsequent status query is "stopped", not
"error" - the cleanup block overwrites the "error" status
(streaming.py line 742), as the status trace shows.  A mid-stream
read failure ends the loop gracefully with status "stopped", no error
recorded and the writer allocated, exactly as the claim says; the two
failure modes thus end in the same final status. -/
theorem c7_open_failure_status_overwritten :
    (process_video_stream_from_url false [] (open_stream_from_url 0)).session.status =
        some "stopped" ∧
    ¬ (process_video_stream_from_url false [] (open_stream_from_url 0)).session.status =
        some "error" ∧
    (process_video_stream_from_url false [] (open_stream_from_url 0)).statusTrace =
        ["error", "stopped"] ∧
    (process_video_stream_from_url false [] (open_stream_from_url 0)).session.error =
        some "Failed to open video stream" ∧
    (process_video_stream_from_url false [] (open_stream_from_url 0)).session.has_writer =
        false ∧
    (process_video_stream_from_url false [] (open_stream_from_url 0)).frames = 0 ∧
    (process_video_stream_from_url true [true, true, false] (open_stream_from_url 0)).session.status =
        some "stopped" ∧
    (process_video_stream_from_url true [true, true, false] (open_stream_from_url 0)).session.error =
        none ∧
    (process_video_stream_from_url true [true, true, false] (open_stream_from_url 0)).session.has_writer =
        true ∧
    (process_video_stream_from_url true [true, true, false] (open_stream_from_url 0)).frames = 2 := by
  decide

/-- Claim C10: a push session is created with no status key, so the
status query reports "unknown" for it - also after it is closed,
since closing never writes the status key - while pull sessions start
at "initializing" and their background task only ever assigns the
statuses "error", "streaming" and "stopped". -/
theorem c10_push_session_status_unknown (now now2 : Nat) (openOk : Bool)
    (readOks : List Bool) :
    get_stream_status (some (request_stream_token now)) =
        some ("unknown", true, false) ∧
    (∀ (s : Session) (t : Nat),
        ((close_stream (some s) t).session).map Session.status = some s.status) ∧
    get_stream_status ((close_stream (some (request_stream_token now)) now2).session) =
        some ("unknown", false, false) ∧
    get_stream_status (some (open_stream_from_url now)) =
        some ("initializing", true, false) ∧
    ((process_video_stream_from_url openOk readOks (open_stream_from_url now)).statusTrace =
          ["error", "stopped"] ∨
      (process_video_stream_from_url openOk readOks (open_stream_from_url now)).statusTrace =
          ["streaming", "stopped"]) := by
  refine ⟨rfl, fun s t => ?_, rfl, rfl, ?_⟩
  · by_cases hc : s.closing
    · simp [close_stream, hc]
    · by_cases hl : s.live
      · simp [close_stream, hc, hl]
      · simp [close_stream, hc, hl]
  · cases openOk
    · left; rfl
    · right; rfl

/-! ## Ingestion sequence numbers (Claim C8)

In the push path `frame_count` starts at 0 and is incremented once
per message received on the WebSocket (streaming.py lines 1489,
1495-1496), before the decode attempt; in the pull path it starts at
0 and is incremented once per successful `cap.read()` (lines 519,
636-642), and the loop breaks at the first failed read. -/

/-- `assignSeq c msgs` pairs each inbound message with the value of
`frame_count` after its increment, starting from counter value `c`. -/
def assignSeq {α : Type} : Nat → List α → List (Nat × α)
  | _, [] => []
  | c, m :: rest => (c + 1, m) :: assignSeq (c + 1) rest

/-- The sequence numbers the push WebSocket loop assigns to its
inbound messages. -/
def pushFrameNumbers {α : Type} (msgs : List α) : List Nat :=
  (assignSeq 0 msgs).map Prod.fst

/-- The sequence numbers the pull loop assigns: one per successful
read, stopping at the first failed read. -/
def pullFrameNumbers (readOks : List Bool) : List Nat :=
  (assignSeq 0 (readOks.takeWhile (fun b => b))).map Prod.fst

theorem assignSeq_map_fst {α : Type} (l : List α) :
    ∀ c : Nat, (assignSeq c l).map Prod.fst = List.range' (c + 1) l.length := by
  induction l with
  | nil => intro c; rfl
  | cons m rest ih =>
    intro c
    rw [List.length_cons, List.range'_succ]
    simpa [assignSeq] using ih (c + 1)

/-- Claim C8: in both ingestion paths the assigned sequence numbers
are exactly 1, 2, 3, ...: the list equals `range' 1 n`, consecutive
entries differ by exactly one, the first number is 1, and the list is
strictly increasing with no repeats. -/
theorem c8_sequence_numbers {α : Type} (msgs : List α) (readOks : List Bool) :
    pushFrameNumbers msgs = List.range' 1 msgs.length ∧
    pullFrameNumbers readOks =
      List.range' 1 (readOks.takeWhile (fun b => b)).length ∧
    List.Chain' (fun a b => b = a + 1) (pushFrameNumbers msgs) ∧
    (pushFrameNumbers msgs).head? = (if msgs.isEmpty then none else some 1) ∧
    List.Pairwise (· < ·) (pushFrameNumbers msgs) ∧
    (pushFrameNumbers msgs).Nodup := by
  have hpush : pushFrameNumbers msgs = List.range' 1 msgs.length :=
    assignSeq_map_fst msgs 0
  have hchain : ∀ (n s : Nat), List.Chain' (fun a b => b = a + 1) (List.range' s n) := by
    intro n
    induction n with
    | zero => intro s; simp
    | succ k ih =>
      intro s
      rw [List.range'_succ]
      cases k with
      | zero => simp
      | succ k2 =>
        rw [List.range'_succ]
        exact List.Chain'.cons rfl (by simpa [List.range'_succ] using ih (s + 1))
  refine ⟨hpush, assignSeq_map_fst _ 0, ?_, ?_, ?_, ?_⟩
  · rw [hpush]; exact hchain msgs.length 1
  · rw [hpush]
    cases msgs with
    | nil => rfl
    | cons m rest =>
      rw [List.length_cons, List.range'_succ]
      rfl
  · rw [hpush]; exact List.pairwise_lt_range' 1 msgs.length
  · rw [hpush]; exact List.nodup_range' 1 msgs.length

/-! ## Connection fanout (Claim C2)

`ConnectionManager.broadcast_json` (streaming.py lines 159-169) walks
`active_connections[token]` in order and awaits `send_json` on each
entry.  The body has no exception handling and never mutates the
connection list: an exception raised by one `send_json` propagates
out of the `for` loop, so later connections are not sent to and the
failing connection stays registered. -/

/-- One registered subscriber channel; `ok` tells whether its
`send_json` call succeeds. -/
structure Conn where
  id : Nat
  ok : Bool
deriving DecidableEq

/-- The `for connection in self.active_connections[token]` loop body:
returns the ids that received the message, in order, and the id of
the channel whose `send_json` raised, if any (the loop stops there). -/
def sendAll : List Conn → List Nat × Option Nat
  | [] => ([], none)
  | c :: rest =>
    if c.ok then
      let r := sendAll rest
      (c.id :: r.1, r.2)
    else ([], some c.id)

/-- Embeds `broadcast_json` for one session: the delivery outcome of
the loop, paired with the subscriber list afterwards (the method
never mutates it).  A session absent from `active_connections`
corresponds to the empty list: the broadcast is a no-op. -/
def broadcast_json (conns : List Conn) : (List Nat × Option Nat) × List Conn :=
  (sendAll conns, conns)

/-- Claim C2 is false on the code: with subscriber 0 whose delivery
fails followed by healthy subscriber 1, the broadcast delivers to
nobody - the failure is not isolated, subscriber 1 never receives the
message - and the failed channel 0 is still registered afterwards. -/
theorem c2_broadcast_not_isolated :
    (broadcast_json [⟨0, false⟩, ⟨1, true⟩]).1.1 = [] ∧
    ¬ 1 ∈ (broadcast_json [⟨0, false⟩, ⟨1, true⟩]).1.1 ∧
    (broadcast_json [⟨0, false⟩, ⟨1, true⟩]).1.2 = some 0 ∧
    ((broadcast_json [⟨0, false⟩, ⟨1, true⟩]).2.map Conn.id).contains 0 = true := by
  decide

/-- Claim C2 amended: broadcast delivers to the registered channels in
order only up to the first delivery failure; the failing channel
raises out of the loop, the channels after it receive nothing, and
the subscriber set is left unchanged, so the failed channel is not
pruned.  When every delivery succeeds, all registered channels
receive the message. -/
theorem c2_broadcast_stops_at_failure (conns : List Conn) :
    (broadcast_json conns).1.1 = (conns.takeWhile Conn.ok).map Conn.id ∧
    (broadcast_json conns).1.2 = ((conns.dropWhile Conn.ok).head?).map Conn.id ∧
    (broadcast_json conns).2 = conns ∧
    (conns.all Conn.ok = true → (broadcast_json conns).1.1 = conns.map Conn.id) := by
  have hmain : ∀ cs : List Conn,
      sendAll cs = ((cs.takeWhile Conn.ok).map Conn.id,
        ((cs.dropWhile Conn.ok).head?).map Conn.id) := by
    intro cs
    induction cs with
    | nil => rfl
    | cons c rest ih =>
      by_cases hc : c.ok
      · simp [sendAll, hc, List.takeWhile_cons, List.dropWhile_cons, ih]
      · simp [sendAll, hc, List.takeWhile_cons, List.dropWhile_cons]
  refine ⟨by simp [broadcast_json, hmain], by simp [broadcast_json, hmain], rfl, ?_⟩
  intro hall
  have htw : conns.takeWhile Conn.ok = conns := by
    rw [List.takeWhile_eq_self_iff]
    intro c hc
    exact (List.all_eq_true.mp hall) c hc
  simp [broadcast_json, hmain, htw]

theorem c2_broadcast_stops_at_failure_witness :
    (broadcast_json [⟨4, true⟩, ⟨7, true⟩]).1.1 = [⟨4, true⟩, ⟨7, true⟩].map Conn.id :=
  (c2_broadcast_stops_at_failure [⟨4, true⟩, ⟨7, true⟩]).2.2.2 (by decide)

/-! ## Classification dispatch vs ingestion (Claim C3)

The push loop (`websocket_endpoint`, streaming.py lines 1491-1626)
handles each inbound frame in order: receive_text, decode, and - when
the 5-second gate fires (line 1527, abstracted here as a per-frame
Boolean) - it encodes the frame and AWAITS `detect_smoking` inline
via `asyncio.to_thread` (line 1534), so the classifier call finishes
before the same iteration goes on to write the frame to the video
file (line 1610) and the latest-frame cache (line 1620), and before
the next receive.  The pull loop (lines 635-713) instead reads,
persists and caches the frame and then dispatches `run_detection`
with `asyncio.create_task` (line 709), fire-and-forget, so the
classifier call completes at an arbitrary later point of the trace.
Decode failures (skipped frames) are not modelled: the claim is about
dispatch blocking. -/

inductive PushEv
  | recv (n : Nat)
  | detectStart (n : Nat)
  | detectEnd (n : Nat)
  | persist (n : Nat)
  | cache (n : Nat)
deriving DecidableEq

/-- The event trace of the push WebSocket loop, given for each frame
whether the detection gate fires on it.  Counter `n` is the number of
frames already received. -/
def pushLoop : Nat → List Bool → List PushEv
  | _, [] => []
  | n, gate :: rest =>
    PushEv.recv (n + 1) ::
      ((if gate then [PushEv.detectStart (n + 1), PushEv.detectEnd (n + 1)] else []) ++
        (PushEv.persist (n + 1) :: PushEv.cache (n + 1) :: pushLoop (n + 1) rest))

def websocket_ingest_trace (gates : List Bool) : List PushEv := pushLoop 0 gates

/-- Checks that every classifier call in a push trace completes
immediately: each `detectStart n` is directly followed by
`detectEnd n`, with no ingestion event in between. -/
def detectWaits : List PushEv → Bool
  | [] => true
  | PushEv.detectStart n :: rest =>
    match rest with
    | PushEv.detectEnd m :: _ => decide (m = n) && detectWaits rest
    | _ => false
  | _ :: rest => detectWaits rest

inductive PullEv
  | read (n : Nat)
  | persist (n : Nat)
  | cache (n : Nat)
  | dispatch (n : Nat)
  | complete (n : Nat)
deriving DecidableEq

/-- The deterministic loop events of the pull path: read, persist,
cache, and (when gated) dispatch of the classification unit for each
frame.  Completions of dispatched units are not loop events. -/
def pullLoop : Nat → List Bool → List PullEv
  | _, [] => []
  | n, gate :: rest =>
    PullEv.read (n + 1) :: PullEv.persist (n + 1) :: PullEv.cache (n + 1) ::
      ((if gate then [PullEv.dispatch (n + 1)] else []) ++ pullLoop (n + 1) rest)

def url_ingest_trace (gates : List Bool) : List PullEv := pullLoop 0 gates

/-- Drops the classifier-completion events from a pull trace, leaving
the loop events. -/
def stripCompletes (t : List PullEv) : List PullEv :=
  t.filter fun e => match e with
    | PullEv.complete _ => false
    | _ => true

/-- Every completion event refers to a unit dispatched earlier and
still outstanding. -/
def completesDispatched : List Nat → List PullEv → Bool
  | _, [] => true
  | ds, PullEv.dispatch n :: rest => completesDispatched (n :: ds) rest
  | ds, PullEv.complete n :: rest =>
    ds.contains n && completesDispatched (ds.erase n) rest
  | ds, _ :: rest => completesDispatched ds rest

/-- A trace is a possible execution of the pull loop for the given
gates when its loop events are exactly `url_ingest_trace gates`, in
order, and every completion follows its dispatch: `create_task` lets
the classifier call complete at any later point without the loop
waiting. -/
def isPullExec (gates : List Bool) (t : List PullEv) : Bool :=
  decide (stripCompletes t = url_ingest_trace gates) && completesDispatched [] t

/-- Position of the first occurrence of an event in a push trace. -/
def pushEvIdx (t : List PushEv) (e : PushEv) : Nat :=
  t.findIdx fun x => decide (x = e)

/-- Claim C3 is false on the code for the push path: with the gate
firing on frame 1, the push trace completes the classifier call for
frame 1 (detectEnd) before the loop persists or caches frame 1 and
before it receives frame 2, so ingestion waits for the call. -/
theorem c3_push_dispatch_blocks :
    websocket_ingest_trace [true, false] =
      [PushEv.recv 1, PushEv.detectStart 1, PushEv.detectEnd 1, PushEv.persist 1,
        PushEv.cache 1, PushEv.recv 2, PushEv.persist 2, PushEv.cache 2] ∧
    pushEvIdx (websocket_ingest_trace [true, false]) (PushEv.detectEnd 1) <
      pushEvIdx (websocket_ingest_trace [true, false]) (PushEv.persist 1) ∧
    pushEvIdx (websocket_ingest_trace [true, false]) (PushEv.detectEnd 1) <
      pushEvIdx (websocket_ingest_trace [true, false]) (PushEv.recv 2) := by
  decide

/-- Claim C3 amended: only the pull path dispatches classification as
an independent unit.  In every push trace the classifier call is
awaited inline - each dispatched call ends immediately after it
starts, before the frame is persisted or cached and before any later
frame is received - while the pull loop admits executions in which
the next frame is read, persisted and cached before the previous
dispatched unit completes. -/
theorem c3_only_pull_dispatch_nonblocking (gates : List Bool) :
    detectWaits (websocket_ingest_trace gates) = true ∧
    isPullExec [true, false]
      [PullEv.read 1, PullEv.persist 1, PullEv.cache 1, PullEv.dispatch 1,
        PullEv.read 2, PullEv.persist 2, PullEv.cache 2, PullEv.complete 1] = true := by
  have hwaits : ∀ (gs : List Bool) (n : Nat), detectWaits (pushLoop n gs) = true := by
    intro gs
    induction gs with
    | nil => intro n; rfl
    | cons g rest ih =>
      intro n
      cases g
      · simpa [pushLoop, detectWaits] using ih (n + 1)
      · simpa [pushLoop, detectWaits] using ih (n + 1)
  exact ⟨hwaits gates 0, by decide⟩

/-! ## Ordered result delivery (Claim C1)

For a pull session, `process_video_stream_from_url` initialises
`detection_queues[stream_id]` with an empty `results` map and
`next_frame = 1` (streaming.py lines 597-601) and spawns
`send_ordered_results` (lines 604-632), which repeatedly pops
`results[next_frame]` when present, broadcasts it and increments
`next_frame`.  However, `run_detection` (lines 670-709) never writes
to `detection_queues`: when the classifier call for frame `frame_num`
returns, it broadcasts the payload DIRECTLY via
`manager.broadcast_json` (line 702).  Results are therefore delivered
in classifier completion order, and the ordering task never fires
because its `results` map stays empty.  A failed classifier call is
dropped with no broadcast (line 685); the model below tracks only
units whose call returns a verdict. -/

/-- Delivery-machinery state of one pull session: the frame numbers
of in-flight classification units, the keys of the (never-written)
`results` map of `detection_queues`, the `next_frame` counter of
`send_ordered_results`, and the broadcast log in delivery order. -/
structure DetState where
  pending : List Nat
  results : List Nat
  next_frame : Nat
  log : List Nat
deriving DecidableEq

inductive DetStep
  | complete (idx : Nat)
  | orderer
deriving DecidableEq

/-- One scheduler step.  `complete idx` finishes the classifier call
of the idx-th in-flight unit: `run_detection` removes nothing from
and adds nothing to `detection_queues` - it broadcasts the payload
immediately (line 702), appending its frame number to the log.
`orderer` is one iteration of the `send_ordered_results` body: it
delivers `results[next_frame]` if present and otherwise sleeps. -/
def detStep (s : DetState) (e : DetStep) : DetState :=
  match e with
  | .complete i =>
    match s.pending[i]? with
    | some n => { s with pending := s.pending.eraseIdx i, log := s.log ++ [n] }
    | none => s
  | .orderer =>
    if s.results.contains s.next_frame then
      { s with results := s.results.erase s.next_frame,
               log := s.log ++ [s.next_frame],
               next_frame := s.next_frame + 1 }
    else s

def detRun (s : DetState) (es : List DetStep) : DetState := es.foldl detStep s

/-- The session state right after two classification units for frames
7 and 10 have been dispatched concurrently: `detection_queues` was
initialised with an empty results map and `next_frame = 1`. -/
def twoInFlight : DetState := ⟨[7, 10], [], 1, []⟩

/-- Claim C1 is false on the code: with units for frames 7 and 10 in
flight, scheduling the classifier call of frame 10 to finish first makes
the session broadcast 10 while 7 is still pending, and the final
delivery order is [10, 7] - not ascending - even with the ordering
task running before, between and after the completions, because
`run_detection` bypasses the queue that `send_ordered_results`
watches. -/
theorem c1_results_delivered_in_completion_order :
    (detRun twoInFlight [DetStep.complete 1]).log = [10] ∧
    (detRun twoInFlight [DetStep.complete 1]).pending.contains 7 = true ∧
    (detRun twoInFlight [DetStep.complete 1, DetStep.complete 0]).log = [10, 7] ∧
    ¬ List.Chain' (· ≤ ·)
        (detRun twoInFlight [DetStep.complete 1, DetStep.complete 0]).log ∧
    (detRun twoInFlight
        [DetStep.orderer, DetStep.complete 1, DetStep.orderer,
          DetStep.complete 0, DetStep.orderer]).log = [10, 7] ∧
    (detRun twoInFlight
        [DetStep.orderer, DetStep.complete 1, DetStep.orderer,
          DetStep.complete 0, DetStep.orderer]).next_frame = 1 := by
  refine ⟨by decide, by decide, by decide, ?_, by decide, by decide⟩
  intro h
  have hlog : (detRun twoInFlight [DetStep.complete 1, DetStep.complete 0]).log =
      [10, 7] := by decide
  rw [hlog] at h
  exact absurd (List.chain'_cons.mp h).1 (by omega)

/-- The ordering task is inert in every schedule: since nothing ever
inserts into the `results` map, it stays empty, `next_frame` never
moves, and every broadcast in the log comes from a completion. -/
theorem send_ordered_results_never_delivers (es : List DetStep) :
    ∀ s : DetState, s.results = [] →
      (detRun s es).results = [] ∧ (detRun s es).next_frame = s.next_frame := by
  induction es with
  | nil => intro s hs; exact ⟨hs, rfl⟩
  | cons e rest ih =>
    intro s hs
    have hstep : (detStep s e).results = [] ∧ (detStep s e).next_frame = s.next_frame := by
      cases e with
      | complete i =>
        cases h : s.pending[i]? with
        | none => simp [detStep, h, hs]
        | some n => simp [detStep, h, hs]
      | orderer => simp [detStep, hs]
    have := ih (detStep s e) hstep.1
    exact ⟨this.1, by rw [detRun, List.foldl_cons, ← detRun, this.2, hstep.2]⟩

end SmokingService
